import Mathlib

/-!
Verification of the NeonPulse Stocks server (server.js): price simulator,
connection registry, and per-tick fan-out / alert engine, shallowly embedded
with exact rationals standing for the JavaScript decimal values and
`round2` standing for `Number.prototype.toFixed(2)` (round half towards +∞,
idealized over exact decimals).
-/

/-- The fixed supported ticker set (`SUPPORTED_STOCKS` in server.js). -/
def SUPPORTED_STOCKS : List String := ["GOOG", "TSLA", "AMZN", "META", "NVDA"]

/-- Rounding to two decimal places, the model of `toFixed(2)` followed by
`parseFloat`: the nearest multiple of 1/100, ties towards plus infinity. -/
def round2 (x : ℚ) : ℚ := ((x * 100 + 1 / 2).floor : ℚ) / 100

/-- `Rat.floor` agrees with the floor of the `FloorRing` instance. -/
theorem Rat.floor_eq_intFloor (a : ℚ) : a.floor = ⌊a⌋ := by
  rw [Rat.floor_def', Rat.floor_def]

/-- `round2` written with the ambient floor function. -/
theorem round2_eq (x : ℚ) : round2 x = (⌊x * 100 + 1 / 2⌋ : ℚ) / 100 := by
  rw [round2, Rat.floor_eq_intFloor]

/-- One entry of the `stockPrices` table: the parsed values of the stored
two-decimal strings `price`, `change`, `changePercent`. -/
structure PriceInfo where
  price : ℚ
  change : ℚ
  changePercent : ℚ
deriving Repr, DecidableEq

/-- One simulator step for a single ticker (the body of the per-ticker loop
inside `setInterval`): draw `delta`, floor the new price at 10, recompute the
percent change from the previous price, store everything with `toFixed(2)`. -/
def updateTicker (delta : ℚ) (info : PriceInfo) : PriceInfo :=
  let currentPrice := info.price
  let change := delta
  let newPrice := max 10 (currentPrice + change)
  let changePercent := change / currentPrice * 100
  { price := round2 newPrice
    change := round2 change
    changePercent := round2 changePercent }

/-- One simulator tick over the whole price table: every supported ticker is
updated with its own drawn delta, nothing else changes. -/
def tickPrices (delta : String → ℚ) (prices : String → PriceInfo) : String → PriceInfo :=
  fun t => if t ∈ SUPPORTED_STOCKS then updateTicker (delta t) (prices t) else prices t

/-- The initial `stockPrices` entry: `price = r1*1000+100`, `change = r2*20-10`,
`changePercent = r3*4-2`, each stored with `toFixed(2)`, where the `r`s are
the values of `Math.random()` (in `[0,1)`). -/
def initInfo (r1 r2 r3 : ℚ) : PriceInfo :=
  { price := round2 (r1 * 1000 + 100)
    change := round2 (r2 * 20 - 10)
    changePercent := round2 (r3 * 4 - 2) }

/-- The price table after `n` ticks driven by the stream `delta` of drawn
random deltas. -/
def simulate (delta : ℕ → String → ℚ) (init : String → PriceInfo) : ℕ → String → PriceInfo
  | 0 => init
  | n + 1 => tickPrices (delta n) (simulate delta init n)

/-! ## Fan-out / alert engine -/

/-- One configured alert-threshold entry (`user.alerts.thresholds[i]`):
`above` and `below` are independently optional. -/
structure ThresholdCfg where
  ticker : String
  above : Option ℚ
  below : Option ℚ
deriving Repr, DecidableEq

/-- A stored user record, as the tick loop reads it: `none` subscriptions or
thresholds stand for a missing/null field. -/
structure UserRec where
  email : String
  subscriptions : Option (List String)
  thresholds : Option (List ThresholdCfg)
deriving Repr, DecidableEq

/-- A wire message emitted to a channel: either a `stockUpdate` carrying the
reported price mapping, or a `priceAlert` whose `value` field is the
`changePercent` payload for `"sudden-change"` and the `threshold` payload for
`"threshold-above"` / `"threshold-below"`. -/
inductive Message where
  | stockUpdate (stocks : List (String × PriceInfo))
  | priceAlert (ticker : String) (alertType : String) (value : ℚ) (price : ℚ)
deriving Repr, DecidableEq

/-- Whether a message is a `stockUpdate`. -/
def isStockUpdate : Message → Bool
  | Message.stockUpdate _ => true
  | Message.priceAlert _ _ _ _ => false

/-- The alert messages the tick loop emits for one subscribed ticker with
price info `info`, in source order: sudden-change (when
`Math.abs(changePercent) > 5`), then threshold-above (`price >= above`), then
threshold-below (`price <= below`), reading the first threshold entry whose
ticker matches. -/
def alertsFor (th : List ThresholdCfg) (ticker : String) (info : PriceInfo) : List Message :=
  let sudden :=
    if 5 < |info.changePercent| then
      [Message.priceAlert ticker "sudden-change" info.changePercent info.price]
    else []
  let thr :=
    match th.find? (fun c => c.ticker == ticker) with
    | none => []
    | some cfg =>
        (match cfg.above with
         | some a => if a ≤ info.price then
             [Message.priceAlert ticker "threshold-above" a info.price] else []
         | none => []) ++
        (match cfg.below with
         | some b => if info.price ≤ b then
             [Message.priceAlert ticker "threshold-below" b info.price] else []
         | none => [])
  sudden ++ thr

/-- One step of the per-identity subscription loop: accumulate the ticker into
`subscribedStocks` and emit its alerts, skipping tickers with no price info. -/
def tickFoldStep (th : List ThresholdCfg) (prices : String → Option PriceInfo)
    (acc : List (String × PriceInfo) × List Message) (ticker : String) :
    List (String × PriceInfo) × List Message :=
  match prices ticker with
  | some info => (acc.1 ++ [(ticker, info)], acc.2 ++ alertsFor th ticker info)
  | none => acc

/-- The messages one tick sends to one identity's channel, in emission order:
nothing when the user record has no (or empty) subscriptions; otherwise the
per-ticker alerts emitted during the loop followed by the single
`stockUpdate` with the accumulated subscribed-stock mapping. -/
def userTickMessages (u : UserRec) (prices : String → Option PriceInfo) : List Message :=
  match u.subscriptions with
  | none => []
  | some subs =>
    if 0 < subs.length then
      let r := subs.foldl (tickFoldStep (u.thresholds.getD []) prices) ([], [])
      r.2 ++ [Message.stockUpdate r.1]
    else []

/-- The subscribed-stock mapping restricted to tickers with a known price. -/
def reportedStocks (subs : List String) (prices : String → Option PriceInfo) :
    List (String × PriceInfo) :=
  subs.filterMap (fun t => (prices t).map (fun i => (t, i)))

/-- The alerts one tick emits for one subscription entry: none when the
ticker has no price info. -/
def tickerAlerts (th : List ThresholdCfg) (prices : String → Option PriceInfo)
    (t : String) : List Message :=
  match prices t with
  | some i => alertsFor th t i
  | none => []

/-- All alert messages one tick emits for a subscription list, in order. -/
def allAlerts (th : List ThresholdCfg) (subs : List String)
    (prices : String → Option PriceInfo) : List Message :=
  subs.flatMap (tickerAlerts th prices)

/-- The `priceAlert` messages of a message list for one ticker and alert
type, in order. -/
def alertsOfType (msgs : List Message) (t ty : String) : List Message :=
  msgs.filter (fun m =>
    match m with
    | Message.stockUpdate _ => false
    | Message.priceAlert t' ty' _ _ => t' == t && ty' == ty)

/-! ## Connection registry and socket handlers -/

/-- The `userSockets` map: (email, socket id) pairs in insertion order, with
the JavaScript `Map` invariant of at most one entry per email key. -/
abbrev Registry := List (String × String)

/-- `userSockets.set(email, socket.id)`: replace the entry for `email` in
place if present, else append a new entry. -/
def registerChannel (email sid : String) : Registry → Registry
  | [] => [(email, sid)]
  | (e, s) :: rest =>
      if e = email then (email, sid) :: rest
      else (e, s) :: registerChannel email sid rest

/-- The `disconnect` handler: scan the registry in order and delete the first
entry whose socket id matches, then stop (`break`). -/
def handleDisconnect (sid : String) : Registry → Registry
  | [] => []
  | (e, s) :: rest =>
      if s = sid then rest
      else (e, s) :: handleDisconnect sid rest

/-- The channels registered for an identity. -/
def channelsOf (email : String) (reg : Registry) : List String :=
  (reg.filter (fun p => p.1 == email)).map Prod.snd

/-- The messages one tick produces for the identity `email`: nothing when the
store has no record for it. -/
def deliveriesFor (users : String → Option UserRec)
    (prices : String → Option PriceInfo) (email : String) : List Message :=
  match users email with
  | some u => userTickMessages u prices
  | none => []

/-- One tick's fan-out pass over the registry: each registered identity's
messages, tagged with the destination socket id. -/
def fanOut (users : String → Option UserRec) (prices : String → Option PriceInfo)
    (reg : Registry) : List (String × List Message) :=
  reg.map (fun p => (p.2, deliveriesFor users prices p.1))

/-- All messages a fan-out pass sends to the channel `sid`. -/
def messagesTo (sid : String) (dv : List (String × List Message)) : List Message :=
  (dv.filter (fun d => d.1 == sid)).flatMap Prod.snd

/-- The accumulation loop of the `register` handler's initial update. -/
def initialStocks (subs : List String) (prices : String → Option PriceInfo) :
    List (String × PriceInfo) :=
  subs.foldl
    (fun acc t =>
      match prices t with
      | some i => acc ++ [(t, i)]
      | none => acc) []

/-- The `register` handler: record the socket for the email, then immediately
send one `stockUpdate` with the current prices of the user's subscribed
tickers (nothing when the record is missing or the subscriptions are
missing/empty, and never any alert). -/
def handleRegister (email sid : String) (reg : Registry)
    (users : String → Option UserRec) (prices : String → Option PriceInfo) :
    Registry × List Message :=
  let reg' := registerChannel email sid reg
  let msgs :=
    match users email with
    | some u =>
      match u.subscriptions with
      | some subs =>
          if 0 < subs.length then
            [Message.stockUpdate (initialStocks subs prices)]
          else []
      | none => []
    | none => []
  (reg', msgs)

/-! ## Subscription endpoints -/

/-- `POST /api/subscribe`: reject unsupported tickers with an error (`none`),
otherwise push the ticker onto the list only when it is not already there and
answer success with the resulting list. -/
def subscribeOp (ticker : String) (subs : List String) : Option (List String) :=
  if SUPPORTED_STOCKS.contains ticker then
    some (if subs.contains ticker then subs else subs ++ [ticker])
  else none

/-- `POST /api/unsubscribe`: filter the ticker out of the list and always
answer success. -/
def unsubscribeOp (ticker : String) (subs : List String) : List String :=
  subs.filter (fun sub => sub != ticker)

/-! ## Structural lemmas about the fan-out loop -/

theorem tickFold_eq (th : List ThresholdCfg) (prices : String → Option PriceInfo) :
    ∀ (subs : List String) (a : List (String × PriceInfo)) (m : List Message),
      subs.foldl (tickFoldStep th prices) (a, m)
        = (a ++ reportedStocks subs prices, m ++ allAlerts th subs prices) := by
  intro subs
  induction subs with
  | nil => intro a m; simp [reportedStocks, allAlerts]
  | cons t rest ih =>
      intro a m
      cases hp : prices t with
      | some i =>
          simp only [List.foldl_cons, tickFoldStep, hp, ih, reportedStocks, allAlerts,
            List.filterMap_cons, List.flatMap_cons, tickerAlerts, Option.map_some']
          simp [reportedStocks, allAlerts, List.append_assoc]
      | none =>
          simp only [List.foldl_cons, tickFoldStep, hp, ih, reportedStocks, allAlerts,
            List.filterMap_cons, List.flatMap_cons, tickerAlerts, Option.map_none']
          simp [reportedStocks, allAlerts]

theorem userTickMessages_eq (u : UserRec) (prices : String → Option PriceInfo)
    (l : List String) (hs : u.subscriptions = some l) (hne : l ≠ []) :
    userTickMessages u prices
      = allAlerts (u.thresholds.getD []) l prices
          ++ [Message.stockUpdate (reportedStocks l prices)] := by
  unfold userTickMessages
  rw [hs]
  have hlen : 0 < l.length := List.length_pos.mpr hne
  simp only [hlen, if_pos, tickFold_eq, List.nil_append]

theorem initialStocks_eq (prices : String → Option PriceInfo) :
    ∀ (subs : List String) (a : List (String × PriceInfo)),
      subs.foldl
          (fun acc t =>
            match prices t with
            | some i => acc ++ [(t, i)]
            | none => acc) a
        = a ++ reportedStocks subs prices := by
  intro subs
  induction subs with
  | nil => intro a; simp [reportedStocks]
  | cons t rest ih =>
      intro a
      cases hp : prices t with
      | some i =>
          simp only [List.foldl_cons, hp, ih, reportedStocks, List.filterMap_cons,
            Option.map_some']
          simp [reportedStocks, List.append_assoc]
      | none =>
          simp only [List.foldl_cons, hp, ih, reportedStocks, List.filterMap_cons,
            Option.map_none']

theorem initialStocks_eq_reported (subs : List String)
    (prices : String → Option PriceInfo) :
    initialStocks subs prices = reportedStocks subs prices := by
  unfold initialStocks
  rw [initialStocks_eq]
  simp

theorem mem_alertsFor {th : List ThresholdCfg} {t : String} {i : PriceInfo}
    {m : Message} (hm : m ∈ alertsFor th t i) :
    ∃ ty v, m = Message.priceAlert t ty v i.price := by
  unfold alertsFor at hm
  simp only [List.mem_append] at hm
  rcases hm with h | h
  · split at h
    · simp only [List.mem_singleton] at h
      exact ⟨_, _, h⟩
    · simp at h
  · split at h
    · simp at h
    · simp only [List.mem_append] at h
      rcases h with h | h
      · split at h
        · split at h
          · simp only [List.mem_singleton] at h
            exact ⟨_, _, h⟩
          · simp at h
        · simp at h
      · split at h
        · split at h
          · simp only [List.mem_singleton] at h
            exact ⟨_, _, h⟩
          · simp at h
        · simp at h

theorem keys_reportedStocks (prices : String → Option PriceInfo) :
    ∀ subs : List String,
      (reportedStocks subs prices).map Prod.fst
        = subs.filter (fun t => (prices t).isSome) := by
  intro subs
  induction subs with
  | nil => rfl
  | cons t rest ih =>
      cases hp : prices t with
      | some i =>
          simp [reportedStocks, List.filterMap_cons, hp, List.filter_cons, ih,
            Option.isSome] at *
      | none =>
          simp [reportedStocks, List.filterMap_cons, hp, List.filter_cons, ih,
            Option.isSome] at *

theorem alertsOfType_append (xs ys : List Message) (t ty : String) :
    alertsOfType (xs ++ ys) t ty = alertsOfType xs t ty ++ alertsOfType ys t ty := by
  simp [alertsOfType]

theorem alertsOfType_alertsFor_ne {th : List ThresholdCfg} {t' t : String}
    {i : PriceInfo} (ty : String) (h : t' ≠ t) :
    alertsOfType (alertsFor th t' i) t ty = [] := by
  rw [alertsOfType, List.filter_eq_nil_iff]
  intro m hm
  obtain ⟨ty', v, rfl⟩ := mem_alertsFor hm
  simp [h]

theorem alertsOfType_tickerAlerts_ne {th : List ThresholdCfg}
    {prices : String → Option PriceInfo} {t' t : String} (ty : String) (h : t' ≠ t) :
    alertsOfType (tickerAlerts th prices t') t ty = [] := by
  unfold tickerAlerts
  cases hp : prices t' with
  | some i => exact alertsOfType_alertsFor_ne ty h
  | none => rfl

theorem alertsOfType_allAlerts_notMem {th : List ThresholdCfg}
    {prices : String → Option PriceInfo} {l : List String} {t : String}
    (ty : String) (h : t ∉ l) :
    alertsOfType (allAlerts th l prices) t ty = [] := by
  induction l with
  | nil => rfl
  | cons t' rest ih =>
      have ht' : t' ≠ t := by
        rintro rfl
        exact h (List.mem_cons_self _ _)
      simp only [allAlerts, List.flatMap_cons, alertsOfType_append] at *
      rw [alertsOfType_tickerAlerts_ne ty ht', ih (fun hmem => h (List.mem_cons_of_mem _ hmem))]
      rfl

theorem alertsOfType_allAlerts (th : List ThresholdCfg)
    (prices : String → Option PriceInfo) {l : List String} {t : String}
    (hnd : l.Nodup) (ht : t ∈ l) (ty : String) :
    alertsOfType (allAlerts th l prices) t ty
      = alertsOfType (tickerAlerts th prices t) t ty := by
  induction l with
  | nil => cases ht
  | cons t' rest ih =>
      simp only [allAlerts, List.flatMap_cons, alertsOfType_append] at *
      rcases List.mem_cons.mp ht with rfl | hmem
      · rw [show rest.flatMap (tickerAlerts th prices) = allAlerts th rest prices from rfl,
          alertsOfType_allAlerts_notMem ty (List.nodup_cons.mp hnd).1]
        simp
      · have ht' : t' ≠ t := by
          rintro rfl
          exact (List.nodup_cons.mp hnd).1 hmem
        rw [alertsOfType_tickerAlerts_ne ty ht', ih (List.nodup_cons.mp hnd).2 hmem]
        rfl

theorem alertsOfType_userTick (u : UserRec) (prices : String → Option PriceInfo)
    {l : List String} {t : String} (hs : u.subscriptions = some l)
    (hnd : l.Nodup) (ht : t ∈ l) (ty : String) :
    alertsOfType (userTickMessages u prices) t ty
      = alertsOfType (tickerAlerts (u.thresholds.getD []) prices t) t ty := by
  rw [userTickMessages_eq u prices l hs (List.ne_nil_of_mem ht), alertsOfType_append,
    alertsOfType_allAlerts _ _ hnd ht]
  simp [alertsOfType]

theorem suddenAlerts_alertsFor (th : List ThresholdCfg) (t : String) (i : PriceInfo) :
    alertsOfType (alertsFor th t i) t "sudden-change"
      = if 5 < |i.changePercent| then
          [Message.priceAlert t "sudden-change" i.changePercent i.price]
        else [] := by
  rcases hf : th.find? (fun c => c.ticker == t) with _ | cfg
  · simp only [alertsFor, hf]
    split_ifs <;> simp [alertsOfType]
  · rcases ha : cfg.above with _ | a <;> rcases hb : cfg.below with _ | b <;>
      simp only [alertsFor, hf, ha, hb] <;> split_ifs <;> simp_all [alertsOfType]

theorem aboveAlerts_alertsFor (th : List ThresholdCfg) (t : String) (i : PriceInfo)
    (cfg : ThresholdCfg) (hf : th.find? (fun c => c.ticker == t) = some cfg) :
    alertsOfType (alertsFor th t i) t "threshold-above"
      = match cfg.above with
        | some a =>
            if a ≤ i.price then [Message.priceAlert t "threshold-above" a i.price]
            else []
        | none => [] := by
  rcases ha : cfg.above with _ | a <;> rcases hb : cfg.below with _ | b <;>
    simp only [alertsFor, hf, ha, hb] <;> split_ifs <;> simp_all [alertsOfType]

theorem belowAlerts_alertsFor (th : List ThresholdCfg) (t : String) (i : PriceInfo)
    (cfg : ThresholdCfg) (hf : th.find? (fun c => c.ticker == t) = some cfg) :
    alertsOfType (alertsFor th t i) t "threshold-below"
      = match cfg.below with
        | some b =>
            if i.price ≤ b then [Message.priceAlert t "threshold-below" b i.price]
            else []
        | none => [] := by
  rcases ha : cfg.above with _ | a <;> rcases hb : cfg.below with _ | b <;>
    simp only [alertsFor, hf, ha, hb] <;> split_ifs <;> simp_all [alertsOfType]

/-! ## Arithmetic lemmas about `round2` -/

theorem intCast_le_round2 {c : ℤ} {x : ℚ} (h : (c : ℚ) ≤ x) : (c : ℚ) ≤ round2 x := by
  rw [round2_eq]
  have h2 : (100 * c : ℤ) ≤ ⌊x * 100 + 1 / 2⌋ := by
    rw [Int.le_floor]
    push_cast
    linarith
  have h3 : ((100 * c : ℤ) : ℚ) ≤ (⌊x * 100 + 1 / 2⌋ : ℚ) := by exact_mod_cast h2
  push_cast at h3
  linarith

theorem round2_intDiv100_add (k : ℤ) (x : ℚ) :
    round2 ((k : ℚ) / 100 + x) = (k : ℚ) / 100 + round2 x := by
  rw [round2_eq, round2_eq]
  have hx : ((k : ℚ) / 100 + x) * 100 + 1 / 2 = (k : ℚ) + (x * 100 + 1 / 2) := by
    ring
  rw [hx, Int.floor_int_add]
  push_cast
  ring

/-! ## Concrete fixtures used by witnesses and counterexamples -/

/-- A quote that just dropped six percent. -/
def infoDrop6 : PriceInfo := { price := 94, change := -6, changePercent := -6 }

/-- A price table that knows only GOOG. -/
def pricesGoog : String → Option PriceInfo :=
  fun t => if t = "GOOG" then some infoDrop6 else none

/-- A user subscribed to GOOG with no thresholds. -/
def userGoog : UserRec :=
  { email := "w@x.com", subscriptions := some ["GOOG"], thresholds := none }

/-- A TSLA quote sitting exactly at 500. -/
def infoT500 : PriceInfo := { price := 500, change := 0, changePercent := 0 }

/-- A price table that knows only TSLA. -/
def pricesTsla : String → Option PriceInfo :=
  fun t => if t = "TSLA" then some infoT500 else none

/-- The degenerate threshold configuration `above = below = 500`. -/
def cfgT : ThresholdCfg := { ticker := "TSLA", above := some 500, below := some 500 }

/-- A user subscribed to TSLA with the degenerate threshold entry. -/
def userTsla : UserRec :=
  { email := "w@x.com", subscriptions := some ["TSLA"], thresholds := some [cfgT] }

/-- A user whose subscriptions field is missing. -/
def userNone : UserRec :=
  { email := "n@x.com", subscriptions := none, thresholds := none }

/-- A registry in which the same socket id was registered under two
identities, built by two `register` events. -/
def regTwo : Registry := registerChannel "b" "s1" (registerChannel "a" "s1" [])

/-- The user store backing `regTwo`: both identities subscribe to GOOG. -/
def usersTwo : String → Option UserRec :=
  fun e =>
    if e = "a" then some { email := "a", subscriptions := some ["GOOG"], thresholds := none }
    else if e = "b" then some { email := "b", subscriptions := some ["GOOG"], thresholds := none }
    else none

/-! ## Claim theorems -/

/-- C1, counterexample: for a user subscribed to GOOG while GOOG just moved
-6%, the tick sends the `priceAlert` first and the `stockUpdate` second, so
the `stockUpdate` is not dispatched before the alert messages. -/
theorem C1_counterexample :
    userTickMessages userGoog pricesGoog
      = [Message.priceAlert "GOOG" "sudden-change" (-6) 94,
         Message.stockUpdate [("GOOG", infoDrop6)]]
    ∧ isStockUpdate ((userTickMessages userGoog pricesGoog).getD 0
        (Message.stockUpdate [])) = false := by
  decide

/-- C1 (amended): for every identity with non-empty subscriptions, each tick
dispatches exactly one `stockUpdate` carrying the full reported-price mapping
(keys exactly the subscribed tickers with known prices), and this
`stockUpdate` is dispatched after (not before) the zero-or-more `priceAlert`
messages produced for that identity's subscribed tickers in the same tick. -/
theorem C1_one_update_after_alerts (u : UserRec) (prices : String → Option PriceInfo)
    (l : List String) (hs : u.subscriptions = some l) (hne : l ≠ []) :
    userTickMessages u prices
      = allAlerts (u.thresholds.getD []) l prices
          ++ [Message.stockUpdate (reportedStocks l prices)]
    ∧ (∀ m ∈ allAlerts (u.thresholds.getD []) l prices, isStockUpdate m = false)
    ∧ (reportedStocks l prices).map Prod.fst = l.filter (fun t => (prices t).isSome) := by
  refine ⟨userTickMessages_eq u prices l hs hne, ?_, keys_reportedStocks prices l⟩
  intro m hm
  simp only [allAlerts, List.mem_flatMap] at hm
  obtain ⟨t, -, hmt⟩ := hm
  unfold tickerAlerts at hmt
  rcases hp : prices t with _ | i
  · rw [hp] at hmt
    cases hmt
  · rw [hp] at hmt
    obtain ⟨ty, v, rfl⟩ := mem_alertsFor hmt
    rfl

/-- C1 witness: the amended statement evaluated on the GOOG fixture. -/
theorem C1_witness :
    userTickMessages userGoog pricesGoog
      = allAlerts (userGoog.thresholds.getD []) ["GOOG"] pricesGoog
          ++ [Message.stockUpdate (reportedStocks ["GOOG"] pricesGoog)] :=
  (C1_one_update_after_alerts userGoog pricesGoog ["GOOG"] rfl
    (List.cons_ne_nil _ _)).1

/-- C2: for a subscribed ticker with known price info, the tick emits a
sudden-change `priceAlert` iff the stored `changePercent` exceeds 5 in
absolute value, strictly; exactly 5 does not fire, 5.0001 does. -/
theorem C2_sudden_change_iff (u : UserRec) (prices : String → Option PriceInfo)
    (l : List String) (t : String) (i : PriceInfo)
    (hs : u.subscriptions = some l) (hnd : l.Nodup) (ht : t ∈ l)
    (hp : prices t = some i) :
    (alertsOfType (userTickMessages u prices) t "sudden-change" ≠ []
        ↔ 5 < |i.changePercent|)
    ∧ (|i.changePercent| = 5 →
        alertsOfType (userTickMessages u prices) t "sudden-change" = [])
    ∧ (|i.changePercent| = 5.0001 →
        alertsOfType (userTickMessages u prices) t "sudden-change" ≠ []) := by
  have key : alertsOfType (userTickMessages u prices) t "sudden-change"
      = if 5 < |i.changePercent| then
          [Message.priceAlert t "sudden-change" i.changePercent i.price]
        else [] := by
    rw [alertsOfType_userTick u prices hs hnd ht "sudden-change"]
    unfold tickerAlerts
    rw [hp]
    exact suddenAlerts_alertsFor _ t i
  refine ⟨?_, ?_, ?_⟩
  · rw [key]
    split_ifs with h <;> simp [h]
  · intro h5
    rw [key, if_neg]
    rw [h5]
    norm_num
  · intro h5
    rw [key, if_pos]
    · simp
    · rw [h5]
      norm_num

/-- C2 witness: the GOOG fixture (a -6% move) fires a sudden-change alert. -/
theorem C2_witness :
    alertsOfType (userTickMessages userGoog pricesGoog) "GOOG" "sudden-change" ≠ [] :=
  (C2_sudden_change_iff userGoog pricesGoog ["GOOG"] "GOOG" infoDrop6 rfl
    (by decide) (by decide) (by decide)).1.mpr (by decide)

/-- C3, counterexample: with previous price 10 and drawn delta -4, the floor
clamps the new price to 10 but the reported change is -4, not the difference
new price minus previous price (which is 0). -/
theorem C3_counterexample :
    ¬ ((updateTicker (-4) ⟨10, 0, 0⟩).change
        = (updateTicker (-4) ⟨10, 0, 0⟩).price - (10 : ℚ)) := by
  have h1 : (updateTicker (-4) (⟨10, 0, 0⟩ : PriceInfo)).change = -4 := by
    simp only [updateTicker]
    rw [round2_eq]
    norm_num
  have h2 : (updateTicker (-4) (⟨10, 0, 0⟩ : PriceInfo)).price = 10 := by
    simp only [updateTicker]
    rw [round2_eq]
    norm_num [max_def]
  rw [h1, h2]
  norm_num

/-- C3 (amended): on every tick the reported `change` equals the drawn delta
rounded to two decimals, and the reported `changePercent` equals
`100 * delta / previousPrice` rounded to two decimals, computed from the
immediately prior tick's price; the reported `change` moreover equals the new
price minus the immediately prior tick's price whenever the floor does not
clamp (previous price + delta at least 10, previous price an exact
two-decimal value). -/
theorem C3_change_and_percent (delta : ℚ) (prev : PriceInfo) :
    (updateTicker delta prev).change = round2 delta
    ∧ (updateTicker delta prev).changePercent = round2 (100 * delta / prev.price)
    ∧ (∀ k : ℤ, prev.price = (k : ℚ) / 100 → 10 ≤ prev.price + delta →
        (updateTicker delta prev).change
          = (updateTicker delta prev).price - prev.price) := by
  refine ⟨rfl, ?_, ?_⟩
  · simp only [updateTicker]
    congr 1
    ring
  · intro k hk hnc
    simp only [updateTicker]
    rw [max_eq_right hnc, hk, round2_intDiv100_add]
    ring

/-- C3 witness: previous price 100, delta -6: reported change -6 and percent
change -6.00 unconditionally, and -6 = 94 - 100 in this unclamped tick. -/
theorem C3_witness :
    (updateTicker (-6) ⟨100, 0, 0⟩).changePercent
      = round2 (100 * (-6) / (⟨100, 0, 0⟩ : PriceInfo).price)
    ∧ (updateTicker (-6) ⟨100, 0, 0⟩).change
      = (updateTicker (-6) ⟨100, 0, 0⟩).price - (⟨100, 0, 0⟩ : PriceInfo).price :=
  ⟨(C3_change_and_percent (-6) ⟨100, 0, 0⟩).2.1,
   (C3_change_and_percent (-6) ⟨100, 0, 0⟩).2.2 10000 (by norm_num) (by norm_num)⟩

/-- C4: starting from the random initial prices (each at least 100) and for
any sequence of drawn deltas, every supported ticker's stored price stays at
or above the floor 10 after every tick. -/
theorem C4_price_floor (delta : ℕ → String → ℚ) (r1 r2 r3 : String → ℚ)
    (h : ∀ t, 0 ≤ r1 t) (n : ℕ) (t : String) (ht : t ∈ SUPPORTED_STOCKS) :
    10 ≤ (simulate delta (fun s => initInfo (r1 s) (r2 s) (r3 s)) n t).price := by
  have h10 : ∀ x : ℚ, 10 ≤ x → (10 : ℚ) ≤ round2 x := by
    intro x hx
    have := intCast_le_round2 (c := 10) (x := x) (by exact_mod_cast hx)
    exact_mod_cast this
  cases n with
  | zero =>
      simp only [simulate, initInfo]
      have hnn : 0 ≤ r1 t * 1000 := mul_nonneg (h t) (by norm_num)
      exact h10 _ (by linarith)
  | succ m =>
      simp only [simulate, tickPrices, if_pos ht, updateTicker]
      exact h10 _ (le_max_left _ _)

/-- C4 witness: after one tick with all randomness zero, GOOG's price obeys
the floor. -/
theorem C4_witness :
    10 ≤ (simulate (fun _ _ => 0) (fun s => initInfo ((fun _ => (0 : ℚ)) s)
      ((fun _ => (0 : ℚ)) s) ((fun _ => (0 : ℚ)) s)) 1 "GOOG").price :=
  C4_price_floor (fun _ _ => 0) (fun _ => 0) (fun _ => 0) (fun _ => 0)
    (fun _ => le_refl 0) 1 "GOOG" (by decide)

/-- C5: for a subscribed ticker whose configured threshold entry is `cfg`, a
threshold-above alert fires iff `cfg` has an `above` value with
`price >= above`, a threshold-below alert fires iff `cfg` has a `below` value
with `price <= below`, and both fire in the same tick whenever the price
satisfies both conditions. -/
theorem C5_threshold_iff (u : UserRec) (prices : String → Option PriceInfo)
    (l : List String) (t : String) (i : PriceInfo) (cfg : ThresholdCfg)
    (hs : u.subscriptions = some l) (hnd : l.Nodup) (ht : t ∈ l)
    (hp : prices t = some i)
    (hcfg : (u.thresholds.getD []).find? (fun c => c.ticker == t) = some cfg) :
    (alertsOfType (userTickMessages u prices) t "threshold-above" ≠ []
        ↔ ∃ a, cfg.above = some a ∧ a ≤ i.price)
    ∧ (alertsOfType (userTickMessages u prices) t "threshold-below" ≠ []
        ↔ ∃ b, cfg.below = some b ∧ i.price ≤ b)
    ∧ (∀ a b, cfg.above = some a → cfg.below = some b → a ≤ i.price →
        i.price ≤ b →
        alertsOfType (userTickMessages u prices) t "threshold-above" ≠ []
        ∧ alertsOfType (userTickMessages u prices) t "threshold-below" ≠ []) := by
  have keyA : alertsOfType (userTickMessages u prices) t "threshold-above"
      = match cfg.above with
        | some a =>
            if a ≤ i.price then [Message.priceAlert t "threshold-above" a i.price]
            else []
        | none => [] := by
    rw [alertsOfType_userTick u prices hs hnd ht "threshold-above"]
    unfold tickerAlerts
    rw [hp]
    exact aboveAlerts_alertsFor _ t i cfg hcfg
  have keyB : alertsOfType (userTickMessages u prices) t "threshold-below"
      = match cfg.below with
        | some b =>
            if i.price ≤ b then [Message.priceAlert t "threshold-below" b i.price]
            else []
        | none => [] := by
    rw [alertsOfType_userTick u prices hs hnd ht "threshold-below"]
    unfold tickerAlerts
    rw [hp]
    exact belowAlerts_alertsFor _ t i cfg hcfg
  have hA : alertsOfType (userTickMessages u prices) t "threshold-above" ≠ []
      ↔ ∃ a, cfg.above = some a ∧ a ≤ i.price := by
    rw [keyA]
    rcases ha : cfg.above with _ | a
    · simp
    · by_cases hle : a ≤ i.price
      · simp [hle]
      · simp [hle]
  have hB : alertsOfType (userTickMessages u prices) t "threshold-below" ≠ []
      ↔ ∃ b, cfg.below = some b ∧ i.price ≤ b := by
    rw [keyB]
    rcases hb : cfg.below with _ | b
    · simp
    · by_cases hle : i.price ≤ b
      · simp [hle]
      · simp [hle]
  refine ⟨hA, hB, ?_⟩
  intro a b hsa hsb hlea hleb
  exact ⟨hA.mpr ⟨a, hsa, hlea⟩, hB.mpr ⟨b, hsb, hleb⟩⟩

/-- C5 witness: the degenerate TSLA configuration `above = below = 500` with
the price exactly at 500 fires both alerts in the same tick. -/
theorem C5_witness :
    alertsOfType (userTickMessages userTsla pricesTsla) "TSLA" "threshold-above" ≠ []
    ∧ alertsOfType (userTickMessages userTsla pricesTsla) "TSLA" "threshold-below" ≠ [] :=
  (C5_threshold_iff userTsla pricesTsla ["TSLA"] "TSLA" infoT500 cfgT rfl
    (by decide) (by decide) (by decide) (by decide)).2.2 500 500 rfl rfl
    (le_refl _) (le_refl _)

/-- C6: an identity with missing/null or empty subscriptions receives no
message at all in a tick, and missing/null thresholds behave exactly like an
empty threshold list rather than erroring. -/
theorem C6_empty_or_missing (u : UserRec) (prices : String → Option PriceInfo) :
    (u.subscriptions = none → userTickMessages u prices = [])
    ∧ (u.subscriptions = some [] → userTickMessages u prices = [])
    ∧ userTickMessages { u with thresholds := none } prices
        = userTickMessages { u with thresholds := some [] } prices := by
  refine ⟨fun h => by simp [userTickMessages, h],
    fun h => by simp [userTickMessages, h], ?_⟩
  obtain ⟨e, subs, th⟩ := u
  cases subs <;> rfl

/-- C6 witness: a user with a missing subscriptions field receives nothing. -/
theorem C6_witness : userTickMessages userNone pricesGoog = [] :=
  (C6_empty_or_missing userNone pricesGoog).1 rfl

/-- C8: processing a `register` event for an identity with non-empty
subscriptions immediately sends exactly one `stockUpdate` whose keys are
exactly the subscribed tickers with known prices, and never any alert. -/
theorem C8_register_initial (email sid : String) (reg : Registry)
    (users : String → Option UserRec) (prices : String → Option PriceInfo)
    (u : UserRec) (subs : List String)
    (hu : users email = some u) (hs : u.subscriptions = some subs)
    (hne : subs ≠ []) :
    (handleRegister email sid reg users prices).2
      = [Message.stockUpdate (reportedStocks subs prices)]
    ∧ (∀ m ∈ (handleRegister email sid reg users prices).2, isStockUpdate m = true)
    ∧ (reportedStocks subs prices).map Prod.fst
        = subs.filter (fun t => (prices t).isSome) := by
  have h1 : (handleRegister email sid reg users prices).2
      = [Message.stockUpdate (reportedStocks subs prices)] := by
    simp only [handleRegister, hu, hs]
    rw [if_pos (List.length_pos.mpr hne), initialStocks_eq_reported]
  refine ⟨h1, ?_, keys_reportedStocks prices subs⟩
  rw [h1]
  intro m hm
  simp only [List.mem_singleton] at hm
  subst hm
  rfl

/-- C8 witness: registering the GOOG user sends exactly the initial
`stockUpdate` for GOOG. -/
theorem C8_witness :
    (handleRegister "w@x.com" "s9" [] (fun _ => some userGoog) pricesGoog).2
      = [Message.stockUpdate (reportedStocks ["GOOG"] pricesGoog)] :=
  (C8_register_initial "w@x.com" "s9" [] (fun _ => some userGoog) pricesGoog
    userGoog ["GOOG"] rfl rfl (List.cons_ne_nil _ _)).1

/-- C9: subscribing an already-subscribed supported ticker returns success
with the list unchanged, a subscribe never introduces duplicates, and
unsubscribing an absent ticker returns success with the list unchanged. -/
theorem C9_subscribe_unsubscribe (t : String) (subs : List String) :
    (t ∈ SUPPORTED_STOCKS → t ∈ subs → subscribeOp t subs = some subs)
    ∧ (∀ l, t ∈ SUPPORTED_STOCKS → subs.Nodup → subscribeOp t subs = some l →
        l.Nodup)
    ∧ (t ∉ subs → unsubscribeOp t subs = subs) := by
  refine ⟨?_, ?_, ?_⟩
  · intro hsup hmem
    simp only [subscribeOp, if_pos (List.elem_iff.mpr hsup),
      if_pos (List.elem_iff.mpr hmem)]
  · intro l hsup hnd heq
    simp only [subscribeOp, if_pos (List.elem_iff.mpr hsup)] at heq
    injection heq with heq
    subst heq
    by_cases hmem : t ∈ subs
    · rw [if_pos (List.elem_iff.mpr hmem)]
      exact hnd
    · rw [if_neg (fun hc => hmem (List.elem_iff.mp hc))]
      simp only [List.nodup_append, hnd]
      simp
      exact hmem
  · intro hnm
    unfold unsubscribeOp
    apply List.filter_eq_self.mpr
    intro a ha
    simp only [bne_iff_ne, ne_eq, decide_eq_true_eq]
    rintro rfl
    exact hnm ha

/-- C9 witness: re-subscribing GOOG leaves the singleton list unchanged and
answers success; unsubscribing the absent TSLA leaves it unchanged. -/
theorem C9_witness :
    subscribeOp "GOOG" ["GOOG"] = some ["GOOG"]
    ∧ unsubscribeOp "TSLA" ["GOOG"] = ["GOOG"] :=
  ⟨(C9_subscribe_unsubscribe "GOOG" ["GOOG"]).1 (by decide) (by decide),
   (C9_subscribe_unsubscribe "TSLA" ["GOOG"]).2.2 (by decide)⟩

/-! ## Registry lemmas for the disconnect/register claims -/

theorem handleDisconnect_no_match (sid : String) :
    ∀ reg : Registry, (∀ p ∈ reg, p.2 ≠ sid) → handleDisconnect sid reg = reg := by
  intro reg
  induction reg with
  | nil => intro _; rfl
  | cons q rest ih =>
      intro hreg
      obtain ⟨qe, qs⟩ := q
      have hq : qs ≠ sid := hreg (qe, qs) (List.mem_cons_self _ _)
      simp only [handleDisconnect, if_neg hq]
      rw [ih (fun p hp => hreg p (List.mem_cons_of_mem _ hp))]

theorem handleDisconnect_first (sid e : String) (post : Registry) :
    ∀ pre : Registry, (∀ p ∈ pre, p.2 ≠ sid) →
      handleDisconnect sid (pre ++ (e, sid) :: post) = pre ++ post := by
  intro pre
  induction pre with
  | nil => intro _; simp [handleDisconnect]
  | cons q rest ih =>
      intro hpre
      obtain ⟨qe, qs⟩ := q
      have hq : qs ≠ sid := hpre (qe, qs) (List.mem_cons_self _ _)
      simp only [List.cons_append, handleDisconnect, if_neg hq]
      rw [show rest.append ((e, sid) :: post) = rest ++ (e, sid) :: post from rfl,
        ih (fun p hp => hpre p (List.mem_cons_of_mem _ hp))]

theorem messagesTo_fanOut_nil {sid : String} {users : String → Option UserRec}
    {prices : String → Option PriceInfo} {reg : Registry}
    (h : ∀ p ∈ reg, p.2 ≠ sid) :
    messagesTo sid (fanOut users prices reg) = [] := by
  unfold messagesTo fanOut
  rw [List.filter_eq_nil_iff.mpr ?_]
  · rfl
  intro d hd
  simp only [List.mem_map] at hd
  obtain ⟨p, hp, rfl⟩ := hd
  simp [h p hp]

theorem disconnect_removes_all {sid : String} :
    ∀ {reg : Registry}, (reg.filter (fun p => p.2 == sid)).length ≤ 1 →
      ∀ p ∈ handleDisconnect sid reg, p.2 ≠ sid := by
  intro reg
  induction reg with
  | nil =>
      intro _ p hp
      cases hp
  | cons q rest ih =>
      intro h1 p hp
      obtain ⟨qe, qs⟩ := q
      by_cases hq : qs = sid
      · subst hq
        simp only [handleDisconnect, if_pos rfl] at hp
        have hf : (rest.filter (fun p => p.2 == qs)).length = 0 := by
          simp only [List.filter_cons, beq_self_eq_true, if_pos, List.length_cons] at h1
          omega
        have hnil := List.filter_eq_nil_iff.mp (List.eq_nil_of_length_eq_zero hf)
        intro hps
        exact absurd (by simp [hps] : ((fun p => p.2 == qs) p) = true)
          (by simpa using hnil p hp)
      · simp only [handleDisconnect, if_neg hq] at hp
        rcases List.mem_cons.mp hp with rfl | hp'
        · exact hq
        · refine ih ?_ p hp'
          have heq : ((qe, qs) :: rest).filter (fun p => p.2 == sid)
              = rest.filter (fun p => p.2 == sid) := by
            simp [List.filter_cons, hq]
          rw [← heq]
          exact h1

theorem mem_registerChannel (email sid : String) :
    ∀ reg : Registry, (email, sid) ∈ registerChannel email sid reg := by
  intro reg
  induction reg with
  | nil => simp [registerChannel]
  | cons q rest ih =>
      obtain ⟨qe, qs⟩ := q
      by_cases hq : qe = email
      · simp [registerChannel, hq]
      · simp only [registerChannel, if_neg hq]
        exact List.mem_cons_of_mem _ ih

theorem channelsOf_registerChannel (email sid : String) :
    ∀ reg : Registry, (reg.map Prod.fst).Nodup →
      channelsOf email (registerChannel email sid reg) = [sid] := by
  intro reg
  induction reg with
  | nil => intro _; simp [registerChannel, channelsOf]
  | cons q rest ih =>
      intro hnd
      obtain ⟨qe, qs⟩ := q
      simp only [List.map_cons, List.nodup_cons] at hnd
      by_cases hq : qe = email
      · subst hq
        simp only [registerChannel, if_pos rfl, channelsOf, List.filter_cons,
          beq_self_eq_true, if_pos, List.map_cons]
        have hrest : rest.filter (fun p => p.1 == qe) = [] := by
          apply List.filter_eq_nil_iff.mpr
          intro p hp
          simp only [beq_iff_eq]
          intro he
          exact hnd.1 (he ▸ List.mem_map_of_mem Prod.fst hp)
        rw [hrest]
        rfl
      · simp only [registerChannel, if_neg hq, channelsOf, List.filter_cons]
        have : ((qe, qs).1 == email) = false := by
          simp [hq]
        rw [this]
        exact ih hnd.2

/-- C7, counterexample: after two `register` events map identities `a` and
`b` to the same socket `s1`, processing `s1`'s disconnect removes only `a`'s
entry, and the next tick still delivers messages to channel `s1` (on behalf
of `b`). -/
theorem C7_counterexample :
    messagesTo "s1" (fanOut usersTwo pricesGoog (handleDisconnect "s1" regTwo)) ≠ [] := by
  decide

/-- C7 (amended): provided the disconnecting channel id is registered under
at most one identity, no tick after the disconnect delivers any message to
that channel; registering a channel for an identity makes the very next
fan-out pass deliver that identity's messages to the new channel; and when
registry keys are unique, registering leaves the identity mapped to exactly
the one new channel. -/
theorem C7_registry_lifecycle (users : String → Option UserRec)
    (prices : String → Option PriceInfo) (reg : Registry)
    (sid email newSid : String)
    (huniq : (reg.filter (fun p => p.2 == sid)).length ≤ 1) :
    messagesTo sid (fanOut users prices (handleDisconnect sid reg)) = []
    ∧ (newSid, deliveriesFor users prices email)
        ∈ fanOut users prices (registerChannel email newSid reg)
    ∧ ((reg.map Prod.fst).Nodup →
        channelsOf email (registerChannel email newSid reg) = [newSid]) := by
  refine ⟨messagesTo_fanOut_nil (disconnect_removes_all huniq), ?_,
    channelsOf_registerChannel email newSid reg⟩
  unfold fanOut
  exact List.mem_map.mpr ⟨(email, newSid), mem_registerChannel email newSid reg, rfl⟩

/-- C7 witness: with `s0` registered under exactly one identity, once it
disconnects no tick delivers to `s0`, and a fresh registration for `b` is
delivered to on the new channel `s2`. -/
theorem C7_witness :
    messagesTo "s0" (fanOut usersTwo pricesGoog
      (handleDisconnect "s0" [("a", "s0")])) = []
    ∧ ("s2", deliveriesFor usersTwo pricesGoog "b")
        ∈ fanOut usersTwo pricesGoog (registerChannel "b" "s2" [("a", "s0")]) :=
  ⟨(C7_registry_lifecycle usersTwo pricesGoog [("a", "s0")] "s0" "b" "s2"
      (by decide)).1,
   (C7_registry_lifecycle usersTwo pricesGoog [("a", "s0")] "s0" "b" "s2"
      (by decide)).2.1⟩

/-- C10: processing a disconnect removes exactly the first registry entry
whose socket id matches: all later entries (including other identities
registered under the same, now dead, channel id) remain, and when no entry
matches nothing is removed. -/
theorem C10_disconnect_first_only (sid e : String) (pre post : Registry)
    (hpre : ∀ p ∈ pre, p.2 ≠ sid) :
    handleDisconnect sid (pre ++ (e, sid) :: post) = pre ++ post
    ∧ (∀ q ∈ post, q ∈ handleDisconnect sid (pre ++ (e, sid) :: post))
    ∧ (∀ reg : Registry, (∀ p ∈ reg, p.2 ≠ sid) → handleDisconnect sid reg = reg) := by
  have h1 := handleDisconnect_first sid e post pre hpre
  refine ⟨h1, ?_, handleDisconnect_no_match sid⟩
  intro q hq
  rw [h1]
  exact List.mem_append_right _ hq

/-- C10 witness: disconnecting `s1` from a registry holding `b` and `c` both
on `s1` removes only `b`'s entry; `c`'s mapping to the dead channel stays. -/
theorem C10_witness :
    handleDisconnect "s1" ([("a", "s0")] ++ ("b", "s1") :: [("c", "s1")])
      = [("a", "s0")] ++ [("c", "s1")]
    ∧ ("c", "s1") ∈ handleDisconnect "s1" ([("a", "s0")] ++ ("b", "s1") :: [("c", "s1")]) :=
  ⟨(C10_disconnect_first_only "s1" "b" [("a", "s0")] [("c", "s1")] (by decide)).1,
   (C10_disconnect_first_only "s1" "b" [("a", "s0")] [("c", "s1")] (by decide)).2.1
     ("c", "s1") (by decide)⟩

